import Mathlib

/-!
A verification development for the TEF synth-animation core
(`Eyes.cpp`, `MatrixString.cpp` of the STM32F4 tree).

Modelling conventions:
* C `float` values are modelled as exact rationals (`ℚ`); the algorithms
  use only small literals, additions, multiplications and divisions, so the
  idealized arithmetic matches the intent of the source.
* `fmodf(x, y)` is `x - y * trunc (x / y)` (truncation toward zero), and
  `roundf` rounds half away from zero, as in C99.
* The LED matrix is modelled as the list of `set_colour` calls a frame
  emits, in program order.
-/

/-- C `ceilf`: the ceiling, written through the floor. -/
def ceilq (x : ℚ) : ℤ := -⌊-x⌋

/-- Truncation toward zero, as C casts and `fmodf` use. -/
def truncq (x : ℚ) : ℤ := if 0 ≤ x then ⌊x⌋ else ceilq x

/-- C `fmodf x y`: `x - y * trunc (x / y)`. -/
def fmodq (x y : ℚ) : ℚ := x - y * truncq (x / y)

/-- C `roundf`: round half away from zero, result an `int`. -/
def roundf (x : ℚ) : ℤ := if 0 ≤ x then ⌊x + 1/2⌋ else ceilq (x - 1/2)

/-- Modelled from the spec: `tef/led/Colour.h` is not part of the sources.
An RGB colour with an alpha channel. -/
structure Colour where
  r : ℚ
  g : ℚ
  b : ℚ
  alpha : ℚ
deriving DecidableEq, Repr

/-- Modelled from the spec: brightness modulation `bMod` returns a copy of
the colour scaled by a fractional coverage value. -/
def Colour.bMod (c : Colour) (f : ℚ) : Colour := ⟨c.r * f, c.g * f, c.b * f, c.alpha⟩

/-- One `matrix.set_colour(x, y, colour)` call. -/
structure Pixel where
  x : ℕ
  y : ℤ
  colour : Colour
deriving DecidableEq, Repr

/-- The mutable state of the `Eyes` element (`Eyes.h` declaration, fields
as constructed in `Eyes.cpp`): five emotion expressiveness weights in
declaration order (angry, happy, heart, surprised, shy), the iris
position `iris_x`, the three colours and the vertical offset. -/
structure Eyes where
  angry : ℚ
  happy : ℚ
  heart : ℚ
  surprised : ℚ
  shy : ℚ
  iris_x : ℚ
  outer_color : Colour
  inner_color : Colour
  blush_colour : Colour
  offset : ℚ
deriving DecidableEq, Repr

/-- Which live float of `Eyes` a `get_flt` call resolves to. -/
inductive FltAttr where
  | emotion (i : ℕ)
  | iris
deriving DecidableEq, Repr

/-- Which live colour of `Eyes` a `get_color` call resolves to. -/
inductive ColorAttr where
  | outer
  | inner
  | blush
deriving DecidableEq, Repr

/-- `Eyes::get_flt` (Eyes.cpp:32-41).  `val` is a `uint16_t` promoted to
`int`, so `val - 0x100 >= 0 && val - 0x100 < emotions.size()` is
`0x100 ≤ val ∧ val < 0x100 + 5`; the switch maps `0x000` to `iris_x` and
everything else to `nullptr` (`none`). -/
def Eyes.get_flt (val : ℕ) : Option FltAttr :=
  if 0x100 ≤ val ∧ val < 0x100 + 5 then some (FltAttr.emotion (val - 0x100))
  else if val = 0 then some FltAttr.iris
  else none

/-- `Eyes::get_color` (Eyes.cpp:43-54).  The parameter is a `uint8_t`, so
an argument is reduced modulo 256 at the call boundary; the switch returns
`outer_color` for 0, `inner_color` for 1, `blush_colour` for 2 and
`nullptr` (`none`) otherwise. -/
def Eyes.get_color (val : ℕ) : Option ColorAttr :=
  if val % 256 = 0 then some ColorAttr.outer
  else if val % 256 = 1 then some ColorAttr.inner
  else if val % 256 = 2 then some ColorAttr.blush
  else none

/-- `add_shapes` (Eyes.cpp:56-62): add `to_add * fact` into `source`
pointwise, skipping the whole addition when `fact < 0.1`. -/
def add_shapes (source : List ℚ) (to_add : List ℚ) (fact : ℚ) : List ℚ :=
  if fact < 1/10 then source
  else List.zipWith (fun a b => a + b * fact) source to_add

/-- One column of `Eyes::draw_total_eye` (Eyes.cpp:64-78), emitting the
`set_colour` calls in program order for the column with index `i`, top
boundary `t` and bottom boundary `b`: nothing when `t ≥ b`; otherwise the
solid rows `ceil t ≤ y < floor b` at `(i + 18, y + 1)`, then the two
anti-aliased boundary rows at `floor t + 1` and `floor b + 1`. -/
def Eyes.draw_column (outer : Colour) (i : ℕ) (t b : ℚ) : List Pixel :=
  if b ≤ t then []
  else
    (List.range (⌊b⌋ - ceilq t).toNat).map (fun k => ⟨i + 18, ceilq t + k + 1, outer⟩)
      ++ [⟨i + 18, ⌊t⌋ + 1, outer.bMod (1 - fmodq t 1)⟩,
          ⟨i + 18, ⌊b⌋ + 1, outer.bMod (fmodq b 1)⟩]

/-- `Eyes::draw_total_eye` (Eyes.cpp:64-78): iterate over the boundary
pairs of the shape (the loop steps `i` by 2; `x = i/2 + 18`). -/
def Eyes.draw_total_eye (outer : Colour) : ℕ → List ℚ → List Pixel
  | i, t :: b :: rest => Eyes.draw_column outer i t b ++ Eyes.draw_total_eye outer (i + 1) rest
  | _, _ => []

/-- The loop body of `Eyes::calculate_blink` (Eyes.cpp:90-93) over the
boundary pairs: the top boundary is overwritten first, and the bottom
boundary is then computed from the already-updated top. -/
def blinkCols (c : ℚ) : List ℚ → List ℚ
  | t :: b :: rest =>
    (t * (1 - 7/10 * c) + b * (7/10 * c))
      :: ((t * (1 - 7/10 * c) + b * (7/10 * c)) * (3/10 * c) + b * (1 - 7/10 * c))
      :: blinkCols c rest
  | l => l

/-- The blink close factor of `Eyes::calculate_blink` (Eyes.cpp:81),
with `clock` the server's synchronized time. -/
def closeFactor (clock : ℚ) : ℚ := 13/10 - |fmodq clock 10 - 5| * 15

/-- `Eyes::calculate_blink` (Eyes.cpp:80-95): apply the blink
interpolation only when the close factor is positive. -/
def Eyes.calculate_blink (clock : ℚ) (total_eye : List ℚ) : List ℚ :=
  if 0 < closeFactor clock then blinkCols (closeFactor clock) total_eye else total_eye

/-- The iris-clip step of `Eyes::tick` (Eyes.cpp:128-131): round the iris
position; if it is a valid column index (`0 ≤ r ≤ size/2 - 1`), clamp that
column's top boundary to at least `bottom - 0.1`. -/
def Eyes.iris_clip (iris_x : ℚ) (total_eye : List ℚ) : List ℚ :=
  let r := roundf iris_x
  if 0 ≤ r ∧ r.toNat ≤ total_eye.length / 2 - 1 then
    total_eye.set (2 * r.toNat)
      (max (total_eye.getD (2 * r.toNat) 0) (total_eye.getD (2 * r.toNat + 1) 0 - 1/10))
  else total_eye

/-- `Eyes::draw_blush` (Eyes.cpp:97-106): a fixed 5×3 diagonal dot
pattern, skipped entirely when the blush alpha is below 0.1. -/
def Eyes.draw_blush (blush : Colour) : List Pixel :=
  if blush.alpha < 1/10 then []
  else (List.range 3).flatMap (fun y => (List.range 5).map
    (fun x => ⟨3 * x + 17 - y, (y : ℤ) + 9, blush⟩))

/-- The baseline "mostly closed" eye shape literal of `Eyes::tick`
(Eyes.cpp:112). -/
def baseline_eye : List ℚ :=
  [1/100, -1/100, 1/10, -1/10, 1/10, -1/10, 1/10, -1/10, 1/10, -1/10, 1/10, -1/10,
   1/10, -1/10, 1/10, -1/10, 1/10, -1/10, 1/10, -1/10, 1/10, -1/10]

/-- `expression_sum` as computed by `Eyes::tick` (Eyes.cpp:114-116):
the sum of `max(weight, 0)` over the five emotions in declaration order. -/
def exprSum (s : Eyes) : ℚ :=
  max s.angry 0 + max s.happy 0 + max s.heart 0 + max s.surprised 0 + max s.shy 0

/-- The scale applied to the relaxed template (Eyes.cpp:118):
`max(0, 1 - expression_sum)`. -/
def relaxedScale (s : Eyes) : ℚ := max 0 (1 - exprSum s)

/-- The normalizing divisor for the emotion scales (Eyes.cpp:120):
`max(expression_sum, 1)`. -/
def divisor (s : Eyes) : ℚ := max (exprSum s) 1

/-- The six blend scale factors `Eyes::tick` hands to `add_shapes`:
the relaxed-template scale followed by each emotion's
`expressiveness / divisor` (Eyes.cpp:118-124). -/
def scaleList (s : Eyes) : List ℚ :=
  [relaxedScale s, s.angry / divisor s, s.happy / divisor s, s.heart / divisor s,
   s.surprised / divisor s, s.shy / divisor s]

/-- Modelled from the spec: the shape templates (`relaxed_eye`,
`angry_eye`, `happy_eye`, `heart_eye`, `surprised_eye`, `shy_eye`) are
compile-time constants declared in `Eyes.h`, which is not among the
sources; each is a 22-float boundary-pair sequence.  They are kept as
parameters of the rendering pipeline. -/
structure Templates where
  relaxed : List ℚ
  angry : List ℚ
  happy : List ℚ
  heart : List ℚ
  surprised : List ℚ
  shy : List ℚ

/-- `Eyes::tick` (Eyes.cpp:108-136): build the blended shape from the
baseline, the relaxed template and the five emotions, apply blink and
iris clip, then rasterize the eye and the blush.  The element state is
returned unchanged together with the emitted `set_colour` calls. -/
def Eyes.tick (tpl : Templates) (clock _delta_t : ℚ) (s : Eyes) : Eyes × List Pixel :=
  let t1 := add_shapes baseline_eye tpl.relaxed (relaxedScale s)
  let t2 := add_shapes t1 tpl.angry (s.angry / divisor s)
  let t3 := add_shapes t2 tpl.happy (s.happy / divisor s)
  let t4 := add_shapes t3 tpl.heart (s.heart / divisor s)
  let t5 := add_shapes t4 tpl.surprised (s.surprised / divisor s)
  let t6 := add_shapes t5 tpl.shy (s.shy / divisor s)
  let t7 := Eyes.calculate_blink clock t6
  let t8 := Eyes.iris_clip s.iris_x t7
  (s, Eyes.draw_total_eye s.outer_color 0 t8 ++ Eyes.draw_blush s.blush_colour)

/-- The mutable state of the `MatrixString` element (MatrixString.h). -/
structure MatrixString where
  current_str : String
  pos_x : ℚ
  pos_y : ℚ
  alignment : ℚ
  scroll_speed : ℚ
  print_colour : Colour
deriving DecidableEq, Repr

/-- `MatrixString::set_string` (MatrixString.cpp:47-52): a null pointer
(`none`) stores the empty string, otherwise the given string is stored. -/
def MatrixString.set_string (s : MatrixString) (str : Option String) : MatrixString :=
  match str with
  | none => { s with current_str := "" }
  | some t => { s with current_str := t }

/-- The `draw_string` call `MatrixString::tick` issues each frame
(MatrixString.cpp:67), recording the arguments that depend on state. -/
structure DrawCall where
  text : String
  x : ℚ
  y : ℚ
  colour : Colour
deriving DecidableEq, Repr

/-- `MatrixString::tick` (MatrixString.cpp:54-68): scroll `pos_x` only
when `|scroll_speed| > 0.1` and the string is non-empty (with wraparound
against the matrix width), then draw the string. -/
def MatrixString.tick (width : ℚ) (delta_t : ℚ) (s : MatrixString) : MatrixString × DrawCall :=
  let font_width : ℚ := 6
  let str_width : ℚ := (s.current_str.length : ℚ) * font_width
  let s2 :=
    if 1/10 < |s.scroll_speed| ∧ s.current_str ≠ "" then
      let px := s.pos_x - s.scroll_speed * delta_t
      let px := if px + (1 - s.alignment) * str_width < width
        then px + (str_width - font_width * 6) else px
      { s with pos_x := px }
    else s
  (s2, ⟨s2.current_str, s2.pos_x - s2.alignment * str_width, s2.pos_y, s2.print_colour⟩)

/-- Concrete inputs used by the witnesses below. -/
def exOuter : Colour := ⟨1, 1, 1, 1⟩

/-- A `MatrixString` state with an empty string and a fast scroll speed. -/
def msEx : MatrixString := ⟨"", 7, 8, 0, 5, ⟨0, 0, 0, 0⟩⟩

/-- An `Eyes` state with all five emotion weights zero. -/
def eyesZeroW : Eyes := ⟨0, 0, 0, 0, 0, 3, exOuter, ⟨0, 0, 0, 0⟩, ⟨1, 3/4, 3/4, 1⟩, 30⟩

/-- An `Eyes` state whose weights sum to zero but contain a negative
entry. -/
def eyesNegW : Eyes := ⟨-1, 1, 0, 0, 0, 3, exOuter, ⟨0, 0, 0, 0⟩, ⟨1, 3/4, 3/4, 1⟩, 30⟩

/-- A 22-float shape whose column 3 has top 1 and bottom 4. -/
def irisShape : List ℚ :=
  [0, 0, 0, 0, 0, 0, 1, 4, 0, 0, 0, 0, 0, 0, 0, 0, 0, 0, 0, 0, 0, 0]

/-- A template instantiation with all boundary entries zero (the real
template values live in the missing `Eyes.h`; the facts proved below
about this instantiation do not depend on them). -/
def zeroTemplates : Templates :=
  ⟨List.replicate 22 0, List.replicate 22 0, List.replicate 22 0,
   List.replicate 22 0, List.replicate 22 0, List.replicate 22 0⟩

/-- An `Eyes` state whose blush alpha is 1 (blush drawn). -/
def eyesBlushOn : Eyes := ⟨0, 0, 0, 0, 0, 0, exOuter, ⟨0, 0, 0, 0⟩, ⟨1, 3/4, 3/4, 1⟩, 30⟩

/-- The same `Eyes` state except that the blush alpha is 0 (blush
skipped); it agrees with `eyesBlushOn` on all weights and the iris. -/
def eyesBlushOff : Eyes := ⟨0, 0, 0, 0, 0, 0, exOuter, ⟨0, 0, 0, 0⟩, ⟨1, 3/4, 3/4, 0⟩, 30⟩

/-- The per-pair shape of `blinkCols`: the top boundary becomes
`t*(1 - 0.7c) + b*(0.7c)`, and the bottom boundary is computed from the
already-updated top as `new_top*(0.3c) + b*(1 - 0.7c)`. -/
theorem blinkCols_pair (c : ℚ) :
    ∀ (j : ℕ) (s : List ℚ), 2 * j + 1 < s.length →
      (blinkCols c s).getD (2 * j) 0
          = s.getD (2 * j) 0 * (1 - 7/10 * c) + s.getD (2 * j + 1) 0 * (7/10 * c)
        ∧ (blinkCols c s).getD (2 * j + 1) 0
          = (s.getD (2 * j) 0 * (1 - 7/10 * c) + s.getD (2 * j + 1) 0 * (7/10 * c)) * (3/10 * c)
            + s.getD (2 * j + 1) 0 * (1 - 7/10 * c) := by
  intro j
  induction j with
  | zero =>
    intro s hs
    rcases s with _ | ⟨t, _ | ⟨b, rest⟩⟩
    · simp at hs
    · simp at hs
    · norm_num [blinkCols]
  | succ j ih =>
    intro s hs
    rcases s with _ | ⟨t, _ | ⟨b, rest⟩⟩
    · simp at hs
    · simp at hs
    · have h2 : 2 * j + 1 < rest.length := by
        simp only [List.length_cons] at hs; omega
      have e1 : 2 * (j + 1) = 2 * j + 1 + 1 := by ring
      have e2 : 2 * (j + 1) + 1 = 2 * j + 1 + 1 + 1 := by ring
      simp only [blinkCols, e1, e2, List.getD_cons_succ]
      exact ih rest h2

/-- C3: when the blink close factor is positive, every column's new top
boundary is `old_top*(1 - 0.7c) + old_bottom*(0.7c)` and the new bottom
boundary is computed from the already-updated top (not the pre-blink top)
as `new_top*(0.3c) + old_bottom*(1 - 0.7c)`; when the close factor is not
positive the shape is left unchanged. -/
theorem c3_blink_update_order (clock : ℚ) (s : List ℚ) (j : ℕ)
    (h : 2 * j + 1 < s.length) :
    (0 < closeFactor clock →
      (Eyes.calculate_blink clock s).getD (2 * j) 0
          = s.getD (2 * j) 0 * (1 - 7/10 * closeFactor clock)
            + s.getD (2 * j + 1) 0 * (7/10 * closeFactor clock)
        ∧ (Eyes.calculate_blink clock s).getD (2 * j + 1) 0
          = (s.getD (2 * j) 0 * (1 - 7/10 * closeFactor clock)
              + s.getD (2 * j + 1) 0 * (7/10 * closeFactor clock)) * (3/10 * closeFactor clock)
            + s.getD (2 * j + 1) 0 * (1 - 7/10 * closeFactor clock))
    ∧ (closeFactor clock ≤ 0 → Eyes.calculate_blink clock s = s) := by
  constructor
  · intro hc
    have hp := blinkCols_pair (closeFactor clock) j s h
    unfold Eyes.calculate_blink
    rw [if_pos hc]
    exact hp
  · intro hc
    unfold Eyes.calculate_blink
    rw [if_neg (not_lt.2 hc)]

/-- Witness for C3 at `clock = 5` (close factor `1.3 > 0`) on the
two-float shape `[0, 1]`. -/
theorem c3_witness :
    0 < closeFactor 5
    ∧ (Eyes.calculate_blink 5 [0, 1]).getD 0 0 = 91/100
    ∧ (Eyes.calculate_blink 5 [0, 1]).getD 1 0 = 4449/10000 := by
  have hcf : closeFactor 5 = 13/10 := by norm_num [closeFactor, fmodq, truncq]
  have hc : 0 < closeFactor 5 := by rw [hcf]; norm_num
  refine ⟨hc, ?_, ?_⟩
  · exact (((c3_blink_update_order 5 [0, 1] 0 (by norm_num)).1 hc).1).trans (by norm_num [hcf])
  · exact (((c3_blink_update_order 5 [0, 1] 0 (by norm_num)).1 hc).2).trans (by norm_num [hcf])

/-- C6: the blink close factor is `1.3 - |fmod(clock, 10) - 5| * 15`; it
is `1.3` at `clock = 5`, and `1.3 - 5*15 < 0` at `clock = 0` and
`clock = 10`, where the blink transformation is skipped. -/
theorem c6_close_factor_values :
    (∀ clock : ℚ, closeFactor clock = 13/10 - |fmodq clock 10 - 5| * 15)
    ∧ closeFactor 5 = 13/10
    ∧ closeFactor 0 = 13/10 - 5 * 15
    ∧ closeFactor 10 = 13/10 - 5 * 15
    ∧ closeFactor 0 < 0 ∧ closeFactor 10 < 0
    ∧ (∀ s : List ℚ, Eyes.calculate_blink 0 s = s)
    ∧ (∀ s : List ℚ, Eyes.calculate_blink 10 s = s) := by
  have h0 : closeFactor 0 = 13/10 - 5 * 15 := by norm_num [closeFactor, fmodq, truncq]
  have h10 : closeFactor 10 = 13/10 - 5 * 15 := by norm_num [closeFactor, fmodq, truncq]
  have h0n : closeFactor 0 < 0 := by rw [h0]; norm_num
  have h10n : closeFactor 10 < 0 := by rw [h10]; norm_num
  refine ⟨fun _ => rfl, by norm_num [closeFactor, fmodq, truncq], h0, h10, h0n, h10n, ?_, ?_⟩
  · intro s; unfold Eyes.calculate_blink; rw [if_neg (not_lt.2 (le_of_lt h0n))]
  · intro s; unfold Eyes.calculate_blink; rw [if_neg (not_lt.2 (le_of_lt h10n))]

/-- C10: `set_string` with a null pointer stores the empty string, and a
tick in which the stored string is empty or `|scroll_speed| ≤ 0.1` leaves
`pos_x` unchanged. -/
theorem c10_set_string_null_and_no_scroll (s : MatrixString) (width delta_t : ℚ)
    (h : s.current_str = "" ∨ |s.scroll_speed| ≤ 1/10) :
    (s.set_string none).current_str = ""
    ∧ (MatrixString.tick width delta_t s).1.pos_x = s.pos_x := by
  refine ⟨rfl, ?_⟩
  have hcond : ¬(1/10 < |s.scroll_speed| ∧ s.current_str ≠ "") := by
    rcases h with h | h
    · exact fun hc => hc.2 h
    · exact fun hc => absurd hc.1 (not_lt.2 h)
  simp only [MatrixString.tick, if_neg hcond]

/-- Witness for C10: an empty string with scroll speed 5 keeps its
`pos_x`, and a null `set_string` stores the empty string. -/
theorem c10_witness :
    (msEx.current_str = "" ∨ |msEx.scroll_speed| ≤ 1/10)
    ∧ (msEx.set_string none).current_str = ""
    ∧ (MatrixString.tick 30 1 msEx).1.pos_x = 7 :=
  ⟨Or.inl rfl, (c10_set_string_null_and_no_scroll msEx 30 1 (Or.inl rfl)).1,
   (c10_set_string_null_and_no_scroll msEx 30 1 (Or.inl rfl)).2⟩

/-- Counterexample for C4: the id `0x200` passed to `Eyes::get_color`
arrives truncated to the 8-bit value `0`, so it resolves `outer_color`
rather than returning a null result. -/
theorem c4_counterexample :
    Eyes.get_color 0x200 = some ColorAttr.outer ∧ Eyes.get_color 0x200 ≠ none := by
  constructor
  · norm_num [Eyes.get_color]
  · simp [Eyes.get_color]

/-- C4 (amended): any float attribute id outside the emotion window
`0x100..0x104` and different from the iris id `0x000` — such as `0x200` —
yields `none` from `get_flt`; `get_color`'s id domain is 8-bit, and any
id whose 8-bit value is not 0, 1 or 2 — such as `0x20` — yields `none`,
while `0x200` truncates to 0 and resolves `outer_color`. -/
theorem c4_unknown_attribute_not_found :
    (∀ v : ℕ, ¬(0x100 ≤ v ∧ v < 0x100 + 5) → v ≠ 0 → Eyes.get_flt v = none)
    ∧ Eyes.get_flt 0x200 = none
    ∧ (∀ v : ℕ, 3 ≤ v % 256 → Eyes.get_color v = none)
    ∧ Eyes.get_color 0x20 = none
    ∧ Eyes.get_color 0x200 = some ColorAttr.outer := by
  refine ⟨?_, ?_, ?_, ?_, ?_⟩
  · intro v h1 h2; unfold Eyes.get_flt; rw [if_neg h1, if_neg h2]
  · norm_num [Eyes.get_flt]
  · intro v h; unfold Eyes.get_color
    rw [if_neg (by omega), if_neg (by omega), if_neg (by omega)]
  · norm_num [Eyes.get_color]
  · norm_num [Eyes.get_color]

/-- Witness for C4 at the unknown id `0x207`. -/
theorem c4_witness :
    ¬(0x100 ≤ 0x207 ∧ 0x207 < 0x100 + 5) ∧ (0x207 : ℕ) ≠ 0
    ∧ Eyes.get_flt 0x207 = none
    ∧ 3 ≤ 0x207 % 256 ∧ Eyes.get_color 0x207 = none :=
  ⟨by omega, by omega, c4_unknown_attribute_not_found.1 0x207 (by omega) (by omega),
   by norm_num, c4_unknown_attribute_not_found.2.2.1 0x207 (by norm_num)⟩

/-- Counterexample for C2: the weights (-1, 1, 0, 0, 0) have
non-negative sum, yet the blend scale factors computed by `Eyes::tick`
sum to 0, not 1 (the negative weight is clamped out of `expression_sum`
but still divides through into its emotion scale). -/
theorem c2_counterexample :
    0 ≤ eyesNegW.angry + eyesNegW.happy + eyesNegW.heart + eyesNegW.surprised + eyesNegW.shy
    ∧ (scaleList eyesNegW).sum ≠ 1 := by
  constructor
  · norm_num [eyesNegW]
  · norm_num [scaleList, relaxedScale, divisor, exprSum, eyesNegW, max_def]

/-- C2 (amended): when all five emotion weights are non-negative, the
blend scale factors `Eyes::tick` hands to `add_shapes` — the
relaxed-template scale `max(0, 1 - expression_sum)` and each emotion's
`weight / max(1, expression_sum)` — sum to exactly 1. -/
theorem c2_blend_scales_sum (s : Eyes)
    (h1 : 0 ≤ s.angry) (h2 : 0 ≤ s.happy) (h3 : 0 ≤ s.heart)
    (h4 : 0 ≤ s.surprised) (h5 : 0 ≤ s.shy) :
    (scaleList s).sum = 1 := by
  have hS : exprSum s = s.angry + s.happy + s.heart + s.surprised + s.shy := by
    unfold exprSum
    rw [max_eq_left h1, max_eq_left h2, max_eq_left h3, max_eq_left h4, max_eq_left h5]
  rcases le_or_lt (exprSum s) 1 with hle | hlt
  · have hdiv : divisor s = 1 := max_eq_right hle
    have hrel : relaxedScale s = 1 - exprSum s := max_eq_right (by linarith)
    simp only [scaleList, List.sum_cons, List.sum_nil, hdiv, hrel, hS]
    ring
  · have hdiv : divisor s = exprSum s := max_eq_left (le_of_lt hlt)
    have hrel : relaxedScale s = 0 := max_eq_left (by linarith)
    have hne : exprSum s ≠ 0 := by linarith
    simp only [scaleList, List.sum_cons, List.sum_nil, hdiv, hrel]
    field_simp
    linarith [hS]

/-- Witness for C2 at the all-zero weights: the relaxed template gets
scale 1 and the total is 1. -/
theorem c2_witness :
    (0:ℚ) ≤ eyesZeroW.angry ∧ (0:ℚ) ≤ eyesZeroW.happy ∧ (0:ℚ) ≤ eyesZeroW.heart
    ∧ (0:ℚ) ≤ eyesZeroW.surprised ∧ (0:ℚ) ≤ eyesZeroW.shy
    ∧ (scaleList eyesZeroW).sum = 1 :=
  ⟨le_refl 0, le_refl 0, le_refl 0, le_refl 0, le_refl 0,
   c2_blend_scales_sum eyesZeroW (le_refl 0) (le_refl 0) (le_refl 0) (le_refl 0) (le_refl 0)⟩

/-- C5: when the rounded iris position is a valid column index, the
iris-clip step clamps that column's top boundary to
`max(top, bottom - 0.1)` and leaves every other entry of the shape —
including that column's bottom boundary — unchanged. -/
theorem c5_iris_clip_clamps_top (iris : ℚ) (s : List ℚ) (hlen : s.length = 22)
    (h0 : 0 ≤ roundf iris) (h10 : roundf iris ≤ 10) :
    ((Eyes.iris_clip iris s).getD (2 * (roundf iris).toNat) 0
        = max (s.getD (2 * (roundf iris).toNat) 0)
            (s.getD (2 * (roundf iris).toNat + 1) 0 - 1/10))
    ∧ ∀ k : ℕ, k ≠ 2 * (roundf iris).toNat →
        (Eyes.iris_clip iris s).getD k 0 = s.getD k 0 := by
  have hguard : 0 ≤ roundf iris ∧ (roundf iris).toNat ≤ s.length / 2 - 1 := by
    refine ⟨h0, ?_⟩
    rw [hlen]
    omega
  have hidx : 2 * (roundf iris).toNat < s.length := by
    rw [hlen]
    omega
  simp only [Eyes.iris_clip]
  rw [if_pos hguard]
  constructor
  · rw [List.getD_eq_getElem?_getD, List.getElem?_set_eq_of_lt _ hidx]
    rfl
  · intro k hk
    rw [List.getD_eq_getElem?_getD, List.getElem?_set_ne (Ne.symm hk),
      ← List.getD_eq_getElem?_getD]

/-- Witness for C5: iris position 3 on a shape whose column 3 has
top 1 and bottom 4 yields new top `max(1, 3.9) = 3.9`. -/
theorem c5_witness :
    irisShape.length = 22 ∧ 0 ≤ roundf 3 ∧ roundf 3 ≤ 10
    ∧ (Eyes.iris_clip 3 irisShape).getD 6 0
        = max (irisShape.getD 6 0) (irisShape.getD 7 0 - 1/10)
    ∧ (Eyes.iris_clip 3 irisShape).getD 6 0 = 39/10
    ∧ (Eyes.iris_clip 3 irisShape).getD 7 0 = 4 := by
  have hr : roundf 3 = 3 := by norm_num [roundf]
  have hlen : irisShape.length = 22 := by norm_num [irisShape]
  have h0 : 0 ≤ roundf 3 := by rw [hr]; norm_num
  have h10 : roundf 3 ≤ 10 := by rw [hr]; norm_num
  have hmain := (c5_iris_clip_clamps_top 3 irisShape hlen h0 h10).1
  have hother := (c5_iris_clip_clamps_top 3 irisShape hlen h0 h10).2
  rw [hr] at hmain hother
  have e : 2 * Int.toNat 3 = 6 := by decide
  rw [e] at hmain hother
  refine ⟨hlen, h0, h10, hmain, hmain.trans ?_, (hother 7 (by decide)).trans ?_⟩
  · norm_num [irisShape, max_def]
  · norm_num [irisShape]

/-- C8: a rounded iris position outside the valid column range `0..10`
makes the iris-clip step leave the shape unchanged (the invalid index is
ignored), and whenever the guard admits an index, the accessed indices
`2r` and `2r+1` are inside the 22-entry shape. -/
theorem c8_iris_out_of_range_ignored (iris : ℚ) (s : List ℚ) (hlen : s.length = 22) :
    ((roundf iris < 0 ∨ 10 < roundf iris) → Eyes.iris_clip iris s = s)
    ∧ (0 ≤ roundf iris ∧ roundf iris ≤ 10 → 2 * (roundf iris).toNat + 1 < s.length) := by
  constructor
  · intro h
    simp only [Eyes.iris_clip]
    rw [if_neg]
    intro hg
    rcases h with h | h
    · omega
    · have h2 := hg.2
      rw [hlen] at h2
      omega
  · intro hg
    rw [hlen]
    omega

/-- Witness for C8 at iris position -2 (rounded to -2, below the valid
range) on a 22-entry shape. -/
theorem c8_witness :
    (List.replicate 22 (0:ℚ)).length = 22 ∧ roundf (-2) < 0
    ∧ Eyes.iris_clip (-2) (List.replicate 22 (0:ℚ)) = List.replicate 22 (0:ℚ) := by
  have hr : roundf (-2) = -2 := by norm_num [roundf, ceilq]
  have hneg : roundf (-2) < 0 := by rw [hr]; norm_num
  exact ⟨by norm_num,
    hneg,
    (c8_iris_out_of_range_ignored (-2) (List.replicate 22 (0:ℚ)) (by norm_num)).1
      (Or.inl hneg)⟩

/-- Every pixel a column of `draw_total_eye` emits sits at the column's
x-coordinate `i + 18`. -/
theorem draw_column_mem_x (outer : Colour) (i : ℕ) (t b : ℚ) (p : Pixel)
    (hp : p ∈ Eyes.draw_column outer i t b) : p.x = i + 18 := by
  unfold Eyes.draw_column at hp
  split at hp
  · simp at hp
  · rcases List.mem_append.1 hp with h | h
    · obtain ⟨k, -, rfl⟩ := List.mem_map.1 h
      rfl
    · simp only [List.mem_cons, List.not_mem_nil] at h
      rcases h with rfl | rfl | h
      · rfl
      · rfl
      · exact absurd h (by simp)

/-- A column whose top boundary is at least its bottom boundary emits no
pixels (the `continue` of Eyes.cpp:66-67). -/
theorem draw_column_skip (outer : Colour) (i : ℕ) (t b : ℚ) (h : b ≤ t) :
    Eyes.draw_column outer i t b = [] := by
  unfold Eyes.draw_column
  rw [if_pos h]

/-- Every pixel of `draw_total_eye` comes from some column `j` of the
shape, drawn at x-offset `i + j`. -/
theorem draw_total_eye_mem (outer : Colour) :
    ∀ (s : List ℚ) (i : ℕ) (p : Pixel), p ∈ Eyes.draw_total_eye outer i s →
      ∃ j, 2 * j + 1 < s.length
        ∧ p ∈ Eyes.draw_column outer (i + j) (s.getD (2 * j) 0) (s.getD (2 * j + 1) 0)
  | [], i, p => by simp [Eyes.draw_total_eye]
  | [t], i, p => by simp [Eyes.draw_total_eye]
  | t :: b :: rest, i, p => by
    intro hp
    simp only [Eyes.draw_total_eye] at hp
    rcases List.mem_append.1 hp with h | h
    · refine ⟨0, by simp, ?_⟩
      simpa using h
    · obtain ⟨j, hj, hmem⟩ := draw_total_eye_mem outer rest (i + 1) p h
      refine ⟨j + 1, by simp only [List.length_cons]; omega, ?_⟩
      have e1 : 2 * (j + 1) = 2 * j + 1 + 1 := by ring
      have e3 : i + (j + 1) = i + 1 + j := by omega
      rw [e1, e3]
      simp only [List.getD_cons_succ]
      exact hmem

/-- C7: a column of the final shape whose top boundary is at least its
bottom boundary contributes no pixel at all to the rasterized frame —
neither solid rows nor anti-aliased boundary rows. -/
theorem c7_degenerate_column_draws_nothing (outer : Colour) (s : List ℚ) (j : ℕ)
    (h : 2 * j + 1 < s.length) (hge : s.getD (2 * j + 1) 0 ≤ s.getD (2 * j) 0) :
    (Eyes.draw_total_eye outer 0 s).filter (fun p => p.x == j + 18) = [] := by
  rw [List.filter_eq_nil_iff]
  intro p hp
  simp only [beq_iff_eq]
  intro hx
  obtain ⟨j', hj', hmem⟩ := draw_total_eye_mem outer s 0 p hp
  have hx' : p.x = 0 + j' + 18 := draw_column_mem_x outer (0 + j') _ _ p hmem
  have hjj : j' = j := by omega
  subst hjj
  rw [draw_column_skip outer (0 + j') _ _ hge] at hmem
  exact absurd hmem (List.not_mem_nil p)

/-- Witness for C7 on the one-column shape `[1, 0]` (top 1 ≥ bottom 0):
no pixel is emitted for column 0. -/
theorem c7_witness :
    2 * 0 + 1 < ([1, 0] : List ℚ).length
    ∧ ([1, 0] : List ℚ).getD (2 * 0 + 1) 0 ≤ ([1, 0] : List ℚ).getD (2 * 0) 0
    ∧ (Eyes.draw_total_eye exOuter 0 [1, 0]).filter (fun p => p.x == 0 + 18) = [] :=
  ⟨by norm_num, by norm_num,
   c7_degenerate_column_draws_nothing exOuter [1, 0] 0 (by norm_num) (by norm_num)⟩

/-- The concrete column of C1: top 2.3, bottom 5.7 rasterizes to solid
rows 3 and 4 (pixels at matrix y = 4 and 5) followed by the two boundary
rows 2 and 5 (pixels at matrix y = 3 and 6) at coverage 0.7. -/
theorem draw_column_c1_eval :
    Eyes.draw_column exOuter 0 (23/10) (57/10)
      = [⟨18, 4, exOuter⟩, ⟨18, 5, exOuter⟩,
         ⟨18, 3, exOuter.bMod (7/10)⟩, ⟨18, 6, exOuter.bMod (7/10)⟩] := by
  rw [Eyes.draw_column, if_neg (by norm_num)]
  norm_num [ceilq, fmodq, truncq, Colour.bMod, exOuter]
  rw [show Int.toNat 2 = 2 from rfl]
  norm_num [List.range_succ]

/-- Counterexample for C1: row 5 (matrix y = 6) is not solid-filled with
`outer_color` for the column top 2.3, bottom 5.7 — the solid loop runs
`ceil(top) ≤ y < floor(bottom)`, i.e. rows 3..4 only, and row 5 receives
only the anti-aliased boundary coverage. -/
theorem c1_counterexample :
    (⟨18, 6, exOuter⟩ : Pixel) ∉ Eyes.draw_total_eye exOuter 0 [23/10, 57/10] := by
  intro hmem
  rw [show Eyes.draw_total_eye exOuter 0 [23/10, 57/10]
      = Eyes.draw_column exOuter 0 (23/10) (57/10)
        ++ Eyes.draw_total_eye exOuter 1 [] from rfl, draw_column_c1_eval] at hmem
  simp only [Eyes.draw_total_eye, List.append_nil, List.mem_cons, List.not_mem_nil,
    or_false] at hmem
  rcases hmem with h | h | h | h <;>
    norm_num [Pixel.mk.injEq, Colour.mk.injEq, exOuter, Colour.bMod] at h

/-- C1 (amended): for a column with top 2.3 and bottom 5.7, rasterization
solid-fills rows 3..4 with `outer_color`, paints boundary row 2 and
boundary row 5 with `outer_color` at coverage 0.7, and paints no row
twice (all four emitted rows are distinct). -/
theorem c1_raster_rows :
    Eyes.draw_total_eye exOuter 0 [23/10, 57/10]
      = [⟨18, 4, exOuter⟩, ⟨18, 5, exOuter⟩,
         ⟨18, 3, exOuter.bMod (7/10)⟩, ⟨18, 6, exOuter.bMod (7/10)⟩]
    ∧ ((Eyes.draw_total_eye exOuter 0 [23/10, 57/10]).map Pixel.y).Nodup := by
  have he : Eyes.draw_total_eye exOuter 0 [23/10, 57/10]
      = [⟨18, 4, exOuter⟩, ⟨18, 5, exOuter⟩,
         ⟨18, 3, exOuter.bMod (7/10)⟩, ⟨18, 6, exOuter.bMod (7/10)⟩] := by
    rw [show Eyes.draw_total_eye exOuter 0 [23/10, 57/10]
        = Eyes.draw_column exOuter 0 (23/10) (57/10)
          ++ Eyes.draw_total_eye exOuter 1 [] from rfl, draw_column_c1_eval]
    simp [Eyes.draw_total_eye]
  refine ⟨he, ?_⟩
  rw [he]
  norm_num

/-- Counterexample for C9: two `Eyes` states that agree on the clock,
all five weights and the iris position — differing only in the blush
colour's alpha — render different frames, because `draw_blush` is gated
on the blush alpha.  The rendered output is therefore not purely a
function of (clock, weights, iris position). -/
theorem c9_counterexample :
    eyesBlushOn.angry = eyesBlushOff.angry ∧ eyesBlushOn.happy = eyesBlushOff.happy
    ∧ eyesBlushOn.heart = eyesBlushOff.heart
    ∧ eyesBlushOn.surprised = eyesBlushOff.surprised
    ∧ eyesBlushOn.shy = eyesBlushOff.shy ∧ eyesBlushOn.iris_x = eyesBlushOff.iris_x
    ∧ (Eyes.tick zeroTemplates 0 0 eyesBlushOn).2
        ≠ (Eyes.tick zeroTemplates 0 0 eyesBlushOff).2 := by
  refine ⟨rfl, rfl, rfl, rfl, rfl, rfl, ?_⟩
  intro h
  simp only [Eyes.tick, exprSum, relaxedScale, divisor, eyesBlushOn, eyesBlushOff] at h
  have h2 := List.append_cancel_left h
  simp only [Eyes.draw_blush] at h2
  rw [if_neg (by norm_num), if_pos (by norm_num)] at h2
  simp [List.range_succ] at h2

/-- C9 (amended): `Eyes::tick` leaves every field of the element
unchanged, and the rendered output is purely a function of the clock,
the five emotion weights, the iris position, `outer_color` and
`blush_colour` (the colour attributes must be included: the blush alpha
gates `draw_blush` and `outer_color` is the rasterization colour). -/
theorem c9_tick_pure (tpl : Templates) (clock delta_t : ℚ) (s s2 : Eyes)
    (ha : s.angry = s2.angry) (hh : s.happy = s2.happy) (hr : s.heart = s2.heart)
    (hu : s.surprised = s2.surprised) (hy : s.shy = s2.shy) (hi : s.iris_x = s2.iris_x)
    (ho : s.outer_color = s2.outer_color) (hb : s.blush_colour = s2.blush_colour) :
    (Eyes.tick tpl clock delta_t s).1 = s
    ∧ (Eyes.tick tpl clock delta_t s).2 = (Eyes.tick tpl clock delta_t s2).2 := by
  refine ⟨rfl, ?_⟩
  simp only [Eyes.tick, exprSum, relaxedScale, divisor, ha, hh, hr, hu, hy, hi, ho, hb]

/-- Witness for C9 at a concrete state and the zero templates. -/
theorem c9_witness :
    (Eyes.tick zeroTemplates 0 0 eyesBlushOn).1 = eyesBlushOn
    ∧ (Eyes.tick zeroTemplates 0 0 eyesBlushOn).2
        = (Eyes.tick zeroTemplates 0 0 eyesBlushOn).2 :=
  c9_tick_pure zeroTemplates 0 0 eyesBlushOn eyesBlushOn
    rfl rfl rfl rfl rfl rfl rfl rfl
